import Mathlib

/-!
Shallow embedding of `src/rightmove_watcher.py` (a polling watcher for new
rental listings) and proofs about its history-tracking, persistence,
failure-counting and cycle logic.

Modelling conventions:
* the `collections.deque` named `self.properties` is a `List PropertyElement`
  whose head is the deque's left end, so `appendleft` is `cons`, `pop` (right
  end) is `dropLast`, iteration and indexing follow list order;
* Python exceptions are `Except` values; a network `ConnectionError` raised by
  the HTTP session is one constructor of the fetch outcome, a non-2xx status
  and a malformed page are the others;
* the file write performed by `_save_property_list` is recorded as the
  `savedSnapshot` field of the step's output (`none` = no write this call);
* the SMS send performed inside `_get_search_results` when the failure counter
  passes the threshold is recorded as the `escalationSent` flag.
-/

/-- One listing, as parsed by `PropertyElement.__init__` from a result card.
Identity (`__eq__`) is by `id` alone. -/
structure PropertyElement where
  id : String
  priceStr : String
  price : String
  href : String
  location : String
  title : String
deriving Repr, DecidableEq

/-- Python `PropertyElement.__eq__`: two listings are equal iff their ids are equal. -/
def propertyEq (a b : PropertyElement) : Bool :=
  a.id == b.id

/-- Python membership `prop in properties` over the deque, which compares each
element to `prop` with `PropertyElement.__eq__` (id equality). -/
def memProperty (p : PropertyElement) (props : List PropertyElement) : Bool :=
  props.any (fun e => propertyEq e p)

/-- Python `PropertyElement.__str__`, the SMS body for a new listing. -/
def propertyStr (p : PropertyElement) : String :=
  p.title ++ ", " ++ p.priceStr ++ "\n" ++ p.location ++ "\n" ++ p.href

/-- The field `self.max_len` (history cap). -/
def maxLen : Nat := 75

/-- The field `self.check_depth` (lookahead window of the diff loop). -/
def checkDepth : Nat := 10

/-- The field `self.fail_thresh` (consecutive-failure threshold). -/
def failThresh : Nat := 3

/-- Method `RightMoveWatcher._add_properties_to_list`: for each entry of
`newProperties` in order, if its id is not already present, push it on the
front; if the length then exceeds `max_len`, pop the back element. -/
def addPropertiesToList (properties : List PropertyElement) :
    List PropertyElement → List PropertyElement
  | [] => properties
  | prop :: rest =>
      if memProperty prop properties then
        addPropertiesToList properties rest
      else
        let grown := prop :: properties
        let capped := if grown.length > maxLen then grown.dropLast else grown
        addPropertiesToList capped rest

/-- The watcher's mutable fields relevant to the claims: `self.properties`
(the bounded history deque) and `self._fail_count`. -/
structure WatcherState where
  properties : List PropertyElement
  failCount : Nat
deriving Repr, DecidableEq

/-- Outcome of the HTTP POST in `_get_search_results`: either the session
raises `requests.exceptions.ConnectionError`, or a response arrives with a
status code and (when the page structure is as expected) a parsed listing
list; `parsed = none` stands for `get_property_list` raising on a malformed
page. -/
inductive FetchOutcome where
  | connectionError
  | response (status : Nat) (parsed : Option (List PropertyElement))
deriving Repr, DecidableEq

/-- Exceptions that escape a cycle (none of these is caught by the
`except ConnectionError` clause, so each one kills the process). -/
inductive CycleError where
  | runtimeError (status : Nat)
  | parseError
  | indexError
deriving Repr, DecidableEq

/-- Result of one call to `_get_search_results` that did not raise: the list
it returns, the updated watcher fields, what (if anything) it wrote to the
snapshot file, and whether it sent the escalation text. -/
structure SearchResultsOut where
  result : List PropertyElement
  state : WatcherState
  savedSnapshot : Option (List PropertyElement)
  escalationSent : Bool
deriving Repr, DecidableEq

/-- Method `RightMoveWatcher._get_search_results`. On a response: a non-200 status
raises `RuntimeError` (uncaught); a malformed page raises while parsing
(uncaught); otherwise the fail counter resets, the freshly parsed list is
pickled to the snapshot file, and that list is returned. On a connection
error: the fail counter is incremented, nothing is written, the escalation
text is sent iff the incremented counter exceeds `fail_thresh`, and the
current history is returned. -/
def getSearchResults (st : WatcherState) : FetchOutcome →
    Except CycleError SearchResultsOut
  | .connectionError =>
      .ok { result := st.properties
            state := { st with failCount := st.failCount + 1 }
            savedSnapshot := none
            escalationSent := decide (st.failCount + 1 > failThresh) }
  | .response status parsed =>
      if status ≠ 200 then
        .error (.runtimeError status)
      else
        match parsed with
        | none => .error .parseError
        | some l =>
            .ok { result := l
                  state := { st with failCount := 0 }
                  savedSnapshot := some l
                  escalationSent := false }

/-- Result of one completed iteration of the `watch` loop body. -/
structure CycleOut where
  state : WatcherState
  savedSnapshot : Option (List PropertyElement)
  notified : List PropertyElement
  escalation : Bool
deriving Repr, DecidableEq

/-- One iteration of the body of `RightMoveWatcher.watch`. With an empty
history: seed the history from the fetch result, no diff. Otherwise: run the
diff loop `for idx in range(self.check_depth): prop = new_properties[idx]`,
which raises `IndexError` when the fetched list is shorter than
`check_depth`, texting each entry of the window absent from the history; then
merge the fetched list into the history. -/
def watchCycle (st : WatcherState) (o : FetchOutcome) :
    Except CycleError CycleOut :=
  match getSearchResults st o with
  | .error e => .error e
  | .ok r =>
      if st.properties.length = 0 then
        .ok { state := { r.state with properties := r.result }
              savedSnapshot := r.savedSnapshot
              notified := []
              escalation := r.escalationSent }
      else
        if checkDepth ≤ r.result.length then
          .ok { state := { r.state with
                  properties := addPropertiesToList r.state.properties r.result }
                savedSnapshot := r.savedSnapshot
                notified :=
                  (r.result.take checkDepth).filter
                    (fun p => !(memProperty p r.state.properties))
                escalation := r.escalationSent }
        else
          .error .indexError

/-- One connection-failure step as the `watch` loop sees it: the state update
and escalation flag of `_get_search_results` on `ConnectionError` (which
never raises). -/
def failStep (st : WatcherState) : WatcherState × Bool :=
  match getSearchResults st .connectionError with
  | .ok out => (out.state, out.escalationSent)
  | .error _ => (st, false)

/-- Iterated failures: `n` consecutive connection-failure fetches starting from `st`: final
state and how many escalation texts were sent. -/
def consecutiveFailures (st : WatcherState) : Nat → WatcherState × Nat
  | 0 => (st, 0)
  | n + 1 =>
      let (st1, c) := consecutiveFailures st n
      let (st2, sent) := failStep st1
      (st2, c + (if sent then 1 else 0))

/-- Outcome of the Twilio send inside `send_text`: success with a message
sid, a `requests.exceptions.ConnectionError` from the transport, or any
other exception raised by the SMS API (e.g. `TwilioRestException`). -/
inductive SendOutcome where
  | success (sid : String)
  | connectionError
  | apiError (msg : String)
deriving Repr, DecidableEq

/-- Method `RightMoveWatcher.send_text`: the `try` block catches only
`requests.exceptions.ConnectionError`; any other exception propagates to the
caller. Returns the line printed on the handled paths. -/
def sendText (o : SendOutcome) : Except String String :=
  match o with
  | .success sid => .ok ("SMS sent, ID: " ++ sid)
  | .connectionError => .ok "Failed to send text :("
  | .apiError m => .error m

/-- Test-data builder: a listing whose id is the decimal print of `n`. -/
def mkP (n : Nat) : PropertyElement :=
  { id := toString n, priceStr := "", price := "", href := "", location := ""
    title := "" }

/-- Test-data: a full-capacity history of 75 listings with distinct ids; its
backmost (oldest) element is `mkP 74`. -/
def seedHistory : List PropertyElement := (List.range maxLen).map mkP

/-- Test-data: a fetched page of `checkDepth` distinct listings. -/
def tenProps : List PropertyElement := (List.range checkDepth).map mkP

theorem propertyEq_self (p : PropertyElement) : propertyEq p p = true := by
  simp [propertyEq]

theorem memProperty_cons (p q : PropertyElement) (H : List PropertyElement) :
    memProperty p (q :: H) = (propertyEq q p || memProperty p H) := rfl

theorem memProperty_append (p : PropertyElement) (A B : List PropertyElement) :
    memProperty p (A ++ B) = (memProperty p A || memProperty p B) := by
  simp [memProperty, List.any_append]

theorem mem_memProperty {p : PropertyElement} {H : List PropertyElement}
    (h : p ∈ H) : memProperty p H = true := by
  simp only [memProperty, List.any_eq_true]
  exact ⟨p, h, propertyEq_self p⟩

theorem memProperty_eq_false {p : PropertyElement} {H : List PropertyElement} :
    memProperty p H = false ↔ ∀ q ∈ H, q.id ≠ p.id := by
  simp [memProperty, propertyEq]

theorem addPropertiesToList_nil (H : List PropertyElement) :
    addPropertiesToList H [] = H := rfl

theorem addPropertiesToList_cons (H : List PropertyElement)
    (p : PropertyElement) (rest : List PropertyElement) :
    addPropertiesToList H (p :: rest) =
      if memProperty p H then addPropertiesToList H rest
      else
        addPropertiesToList
          (if (p :: H).length > maxLen then (p :: H).dropLast else p :: H)
          rest := rfl

theorem addPropertiesToList_id (H : List PropertyElement) :
    ∀ L : List PropertyElement, (∀ p ∈ L, memProperty p H = true) →
      addPropertiesToList H L = H := by
  intro L
  induction L with
  | nil => intro _; rfl
  | cons p rest ih =>
      intro h
      rw [addPropertiesToList_cons, if_pos (h p (List.mem_cons_self p rest))]
      exact ih fun q hq => h q (List.mem_cons_of_mem p hq)

theorem failStep_eq (st : WatcherState) :
    failStep st =
      ({ st with failCount := st.failCount + 1 },
        decide (st.failCount + 1 > failThresh)) := rfl

theorem consecutiveFailures_closed (H : List PropertyElement) (k n : Nat) :
    consecutiveFailures ⟨H, k⟩ n =
      (⟨H, k + n⟩, (k + n) - max k failThresh) := by
  induction n with
  | zero =>
      simp [consecutiveFailures, Prod.mk.injEq, WatcherState.mk.injEq,
        failThresh]
  | succ n ih =>
      simp only [consecutiveFailures, ih, failStep_eq]
      by_cases hc : failThresh < k + n + 1
      · simp only [hc, decide_True, if_true, Prod.mk.injEq,
          WatcherState.mk.injEq, gt_iff_lt]
        simp only [failThresh] at hc ⊢
        exact ⟨⟨trivial, by omega⟩, by omega⟩
      · simp only [hc, decide_False, if_false, Prod.mk.injEq,
          WatcherState.mk.injEq, gt_iff_lt, Bool.false_eq_true]
        simp only [failThresh] at hc ⊢
        exact ⟨⟨trivial, by omega⟩, by omega⟩

/-- Claim C3, counterexample: starting from a zero failure counter, three
consecutive connection failures send zero escalation texts (the claim requires
exactly one, on the third), while five consecutive failures send two (so the
alert is also not one-time once it starts). -/
theorem escalation_missing_on_third_failure :
    (consecutiveFailures ⟨[mkP 0], 0⟩ 3).2 = 0 ∧
    (consecutiveFailures ⟨[mkP 0], 0⟩ 5).2 = 2 := by decide

/-- Claim C3, amended: with `failThreshold = 3` and the counter starting at 0,
`n` consecutive connection failures leave the history exactly as it was and
the counter at `n`, and send `n - failThreshold` escalation texts: the first
alert goes out on the fourth consecutive failure (when the counter exceeds
the threshold) and one more goes out on every further consecutive failure;
polling itself is never stopped by the fetch step. -/
theorem escalation_first_after_threshold_exceeded
    (H : List PropertyElement) (n : Nat) :
    consecutiveFailures ⟨H, 0⟩ n = (⟨H, n⟩, n - failThresh) := by
  have h := consecutiveFailures_closed H 0 n
  simpa using h

/-- Claim C7, counterexample: a delivery-transport error raised by the SMS
API that is not a `requests` connection error (e.g. a `TwilioRestException`)
propagates out of `send_text` instead of being swallowed. -/
theorem sendText_api_error_propagates :
    sendText (SendOutcome.apiError "Unable to create record") =
      Except.error "Unable to create record" := rfl

/-- Claim C7, amended: `send_text` swallows (and logs) exactly the
connection-level transport failure, since its `try` block catches only
`requests.exceptions.ConnectionError`; any other exception raised by the SMS
API propagates to the caller, and no path retries the message. -/
theorem sendText_swallows_only_connection_errors :
    sendText SendOutcome.connectionError = Except.ok "Failed to send text :(" ∧
    (∀ m, sendText (SendOutcome.apiError m) = Except.error m) ∧
    (∀ sid, sendText (SendOutcome.success sid) =
      Except.ok ("SMS sent, ID: " ++ sid)) :=
  ⟨rfl, fun _ => rfl, fun _ => rfl⟩

/-- Claim C2, counterexample: merging the fetched page `[mkP 0, mkP 1]` (page
order: `mkP 0` first) into an empty history yields `[mkP 1, mkP 0]`, whose
front is the latest-in-page new entry, not the earliest-in-page one as the
claim requires. -/
theorem merge_front_is_latest_new_entry :
    addPropertiesToList [] [mkP 0, mkP 1] = [mkP 1, mkP 0] ∧
    (addPropertiesToList [] [mkP 0, mkP 1]).head? = some (mkP 1) ∧
    mkP 0 ≠ mkP 1 := by decide

/-- Claim C2, amended: `_add_properties_to_list` iterates the fetched list in
page order and pushes each entry that is not yet present onto the front, so
when several new entries are inserted in one cycle their relative page order
is reversed in the resulting history: the result is the reversal of the new
entries followed by the old history, with the latest-in-page new entry
frontmost (shown here for a wholly-new, duplicate-free fetched list small
enough that no eviction interferes). -/
theorem merge_reverses_relative_page_order
    (H L : List PropertyElement)
    (hnew : ∀ p ∈ L, memProperty p H = false)
    (hnd : L.Pairwise (fun a b => a.id ≠ b.id))
    (hlen : H.length + L.length ≤ maxLen) :
    addPropertiesToList H L = L.reverse ++ H := by
  induction L generalizing H with
  | nil => simp [addPropertiesToList_nil]
  | cons p rest ih =>
      have hp : memProperty p H = false := hnew p (List.mem_cons_self p rest)
      have hlen1 : H.length + rest.length + 1 ≤ maxLen := by
        have := hlen
        simp only [List.length_cons] at this
        omega
      rw [addPropertiesToList_cons, if_neg (by simp [hp])]
      have hcap : ¬((p :: H).length > maxLen) := by
        simp only [List.length_cons, gt_iff_lt, not_lt]
        omega
      rw [if_neg hcap]
      have hpair := List.pairwise_cons.mp hnd
      have hnew2 : ∀ q ∈ rest, memProperty q (p :: H) = false := by
        intro q hq
        have hne : p.id ≠ q.id := hpair.1 q hq
        simp [memProperty_cons, propertyEq, hne, hnew q (List.mem_cons_of_mem p hq)]
      have hlen2 : (p :: H).length + rest.length ≤ maxLen := by
        simp only [List.length_cons]
        omega
      rw [ih (p :: H) hnew2 hpair.2 hlen2]
      simp [List.reverse_cons, List.append_assoc]

/-- Claim C2, witness at concrete inputs. -/
theorem merge_reverses_relative_page_order_witness :
    addPropertiesToList [mkP 5] [mkP 0, mkP 1] =
      [mkP 0, mkP 1].reverse ++ [mkP 5] :=
  merge_reverses_relative_page_order [mkP 5] [mkP 0, mkP 1]
    (by decide) (by decide) (by decide)

theorem addPropertiesToList_length_le (L : List PropertyElement) :
    ∀ H : List PropertyElement, H.length ≤ maxLen →
      (addPropertiesToList H L).length ≤ maxLen := by
  induction L with
  | nil => intro H hH; simpa [addPropertiesToList_nil] using hH
  | cons p rest ih =>
      intro H hH
      rw [addPropertiesToList_cons]
      by_cases hm : memProperty p H
      · rw [if_pos hm]; exact ih H hH
      · rw [if_neg hm]
        by_cases hc : (p :: H).length > maxLen
        · rw [if_pos hc]
          refine ih _ ?_
          simp only [List.length_dropLast, List.length_cons]
          omega
        · rw [if_neg hc]
          refine ih _ ?_
          simp only [List.length_cons]
          simp only [List.length_cons, gt_iff_lt, not_lt] at hc
          omega

theorem addPropertiesToList_suffix (L : List PropertyElement) :
    ∀ H : List PropertyElement, H.length + L.length ≤ maxLen →
      ∃ pre, addPropertiesToList H L = pre ++ H := by
  induction L with
  | nil => intro H _; exact ⟨[], rfl⟩
  | cons p rest ih =>
      intro H hH
      simp only [List.length_cons] at hH
      rw [addPropertiesToList_cons]
      by_cases hm : memProperty p H
      · rw [if_pos hm]
        exact ih H (by omega)
      · rw [if_neg hm]
        have hcap : ¬((p :: H).length > maxLen) := by
          simp only [List.length_cons, gt_iff_lt, not_lt]
          omega
        rw [if_neg hcap]
        obtain ⟨pre, hpre⟩ := ih (p :: H) (by simp only [List.length_cons]; omega)
        exact ⟨pre ++ [p], by simp [hpre, List.append_assoc]⟩

theorem addPropertiesToList_mem_of_no_evict (L : List PropertyElement) :
    ∀ H : List PropertyElement, H.length + L.length ≤ maxLen →
      ∀ p ∈ L, memProperty p (addPropertiesToList H L) = true := by
  induction L with
  | nil => intro _ _ p hp; cases hp
  | cons q rest ih =>
      intro H hH p hp
      simp only [List.length_cons] at hH
      rw [addPropertiesToList_cons]
      rcases List.mem_cons.mp hp with hpq | hpr
      · subst hpq
        by_cases hm : memProperty p H
        · rw [if_pos hm]
          obtain ⟨pre, hpre⟩ := addPropertiesToList_suffix rest H (by omega)
          rw [hpre, memProperty_append, hm, Bool.or_true]
        · rw [if_neg hm]
          have hcap : ¬((p :: H).length > maxLen) := by
            simp only [List.length_cons, gt_iff_lt, not_lt]
            omega
          rw [if_neg hcap]
          obtain ⟨pre, hpre⟩ :=
            addPropertiesToList_suffix rest (p :: H)
              (by simp only [List.length_cons]; omega)
          rw [hpre, memProperty_append, memProperty_cons, propertyEq_self]
          simp
      · by_cases hm : memProperty q H
        · rw [if_pos hm]
          exact ih H (by omega) p hpr
        · rw [if_neg hm]
          have hcap : ¬((q :: H).length > maxLen) := by
            simp only [List.length_cons, gt_iff_lt, not_lt]
            omega
          rw [if_neg hcap]
          exact ih (q :: H) (by simp only [List.length_cons]; omega) p hpr

/-- Claim C4, counterexample: with the 75-element full-capacity history
`seedHistory` (whose oldest entry is `mkP 74`) and the fetched list
`[mkP 74, mkP 100]`, the merge first skips `mkP 74` (already present), then
inserts `mkP 100` and evicts the backmost `mkP 74` — so the identifier of
`mkP 74`, although it occurs in the fetched list, is absent from the
resulting history. -/
theorem merge_loses_fetched_identifier_at_cap :
    seedHistory.length = maxLen ∧
    mkP 74 ∈ [mkP 74, mkP 100] ∧
    memProperty (mkP 74) seedHistory = true ∧
    memProperty (mkP 74) (addPropertiesToList seedHistory [mkP 74, mkP 100]) =
      false := by decide

/-- Claim C4, amended: for every history `H` of size at most the cap and
every fetched list `L`, the merged history's size never exceeds the cap
(75); and whenever the cap cannot be hit during the merge (the history size
plus the fetched-list length stays within the cap, so no eviction occurs),
every identifier occurring in `L` is present in the resulting history.
Eviction at the cap can remove an identifier that occurs in `L`, as the
counterexample shows, so the presence half needs the no-eviction bound. -/
theorem merge_capped_and_complete_without_eviction
    (H L : List PropertyElement) (hH : H.length ≤ maxLen) :
    (addPropertiesToList H L).length ≤ maxLen ∧
    (H.length + L.length ≤ maxLen →
      ∀ p ∈ L, memProperty p (addPropertiesToList H L) = true) :=
  ⟨addPropertiesToList_length_le L H hH,
    fun hb p hp => addPropertiesToList_mem_of_no_evict L H hb p hp⟩

/-- Claim C4, witness at concrete inputs. -/
theorem merge_capped_and_complete_without_eviction_witness :
    (addPropertiesToList [mkP 5] [mkP 0, mkP 1]).length ≤ maxLen ∧
    ((List.length [mkP 5]) + (List.length [mkP 0, mkP 1]) ≤ maxLen →
      ∀ p ∈ [mkP 0, mkP 1],
        memProperty p (addPropertiesToList [mkP 5] [mkP 0, mkP 1]) = true) :=
  merge_capped_and_complete_without_eviction [mkP 5] [mkP 0, mkP 1] (by decide)

/-- Claim C8 (confirmed): merging a single fetched entry whose id is new into
a history exactly at the cap pops exactly the backmost (oldest) element: the
result is the new entry consed onto the history minus its last element, its
size is still the cap, and the new identifier is present. -/
theorem merge_at_cap_evicts_exactly_oldest
    (H : List PropertyElement) (n : PropertyElement)
    (hlen : H.length = maxLen) (hnew : memProperty n H = false) :
    addPropertiesToList H [n] = n :: H.dropLast ∧
    (addPropertiesToList H [n]).length = maxLen ∧
    memProperty n (addPropertiesToList H [n]) = true := by
  have hne : H ≠ [] := by
    intro hnil
    rw [hnil] at hlen
    simp [maxLen] at hlen
  have hstep : addPropertiesToList H [n] = n :: H.dropLast := by
    rw [addPropertiesToList_cons, if_neg (by simp [hnew])]
    have hcap : (n :: H).length > maxLen := by
      simp only [List.length_cons, hlen, gt_iff_lt]
      omega
    rw [if_pos hcap, addPropertiesToList_nil]
    cases H with
    | nil => exact absurd rfl hne
    | cons a t => rfl
  refine ⟨hstep, ?_, ?_⟩
  · rw [hstep]
    simp only [List.length_cons, List.length_dropLast, hlen]
    simp [maxLen]
  · rw [hstep, memProperty_cons, propertyEq_self]
    simp

/-- Claim C8, witness at a concrete full-capacity history. -/
theorem merge_at_cap_evicts_exactly_oldest_witness :
    addPropertiesToList seedHistory [mkP 100] = mkP 100 :: seedHistory.dropLast ∧
    (addPropertiesToList seedHistory [mkP 100]).length = maxLen ∧
    memProperty (mkP 100) (addPropertiesToList seedHistory [mkP 100]) = true :=
  merge_at_cap_evicts_exactly_oldest seedHistory (mkP 100)
    (by decide) (by decide)

/-- The History invariant of the data model: no two entries share an id. -/
def nodupIds (l : List PropertyElement) : Prop :=
  l.Pairwise (fun a b => a.id ≠ b.id)

instance (l : List PropertyElement) : Decidable (nodupIds l) :=
  inferInstanceAs
    (Decidable (l.Pairwise fun a b : PropertyElement => a.id ≠ b.id))

/-- Claim C9 (confirmed): merging any fetched list into a history with
pairwise-distinct identifiers yields a history with pairwise-distinct
identifiers — an entry is pushed only when its id is absent, and eviction
only removes entries. -/
theorem merge_preserves_nodup_ids
    (L : List PropertyElement) :
    ∀ H : List PropertyElement, nodupIds H →
      nodupIds (addPropertiesToList H L) := by
  induction L with
  | nil => intro H h; simpa [addPropertiesToList_nil] using h
  | cons p rest ih =>
      intro H h
      rw [addPropertiesToList_cons]
      by_cases hm : memProperty p H
      · rw [if_pos hm]; exact ih H h
      · rw [if_neg hm]
        have hp : nodupIds (p :: H) := by
          refine List.pairwise_cons.mpr ⟨?_, h⟩
          intro q hq
          have := memProperty_eq_false.mp (Bool.of_not_eq_true hm) q hq
          exact fun hEq => this hEq.symm
        by_cases hc : (p :: H).length > maxLen
        · rw [if_pos hc]
          refine ih _ ?_
          exact List.Pairwise.sublist (List.dropLast_sublist (p :: H)) hp
        · rw [if_neg hc]
          exact ih _ hp

/-- Claim C9, witness at concrete inputs. -/
theorem merge_preserves_nodup_ids_witness :
    nodupIds (addPropertiesToList [mkP 0, mkP 1] [mkP 0, mkP 2]) :=
  merge_preserves_nodup_ids [mkP 0, mkP 2] [mkP 0, mkP 1] (by decide)

deriving instance DecidableEq for Except

theorem getSearchResults_connectionError (st : WatcherState) :
    getSearchResults st .connectionError =
      Except.ok { result := st.properties
                  state := { st with failCount := st.failCount + 1 }
                  savedSnapshot := none
                  escalationSent := decide (st.failCount + 1 > failThresh) } :=
  rfl

theorem getSearchResults_success (st : WatcherState)
    (l : List PropertyElement) :
    getSearchResults st (.response 200 (some l)) =
      Except.ok { result := l, state := { st with failCount := 0 }
                  savedSnapshot := some l, escalationSent := false } := by
  simp [getSearchResults]

/-- Claim C1, counterexample: a successful steady-state cycle with history
`[mkP 100]` and fetched page `tenProps` writes the raw fetched page to the
snapshot file, while the merged bounded history after the cycle is
`tenProps.reverse ++ [mkP 100]` — a different list, so the snapshot does not
equal the bounded History collection. -/
theorem snapshot_differs_from_merged_history :
    (watchCycle ⟨[mkP 100], 0⟩ (FetchOutcome.response 200 (some tenProps))).map
        (fun out => (out.savedSnapshot, out.state.properties)) =
      Except.ok (some tenProps, tenProps.reverse ++ [mkP 100]) ∧
    tenProps ≠ tenProps.reverse ++ [mkP 100] := by decide

/-- Claim C1, amended: after every successful fetch the snapshot written to
the persistent history file is the freshly fetched, parsed property list —
the write happens inside `_get_search_results`, before
`_add_properties_to_list` merges the page into the history — so it equals
the bounded History only when that history happens to coincide with the raw
page. -/
theorem snapshot_is_raw_fetched_list (st : WatcherState)
    (l : List PropertyElement) (out : CycleOut)
    (h : watchCycle st (FetchOutcome.response 200 (some l)) = Except.ok out) :
    out.savedSnapshot = some l := by
  simp only [watchCycle, getSearchResults_success] at h
  split at h
  · cases h; rfl
  · split at h
    · cases h; rfl
    · cases h

/-- Claim C1, witness at concrete inputs. -/
theorem snapshot_is_raw_fetched_list_witness :
    ({ state := ⟨[mkP 0], 0⟩, savedSnapshot := some [mkP 0], notified := []
       escalation := false } : CycleOut).savedSnapshot = some [mkP 0] :=
  snapshot_is_raw_fetched_list ⟨[], 0⟩ [mkP 0] _ (by decide)

/-- Claim C5, counterexample: in the steady state (history `[mkP 0]`), a
successful fetch whose page has a single listing — fewer than `checkDepth`
— makes the diff loop index past the end of the list, so the cycle aborts
with `IndexError` instead of clamping to the available length. -/
theorem short_page_raises_index_error :
    watchCycle ⟨[mkP 0], 0⟩ (FetchOutcome.response 200 (some [mkP 1])) =
      Except.error CycleError.indexError := by decide

/-- Claim C5, amended: in the steady state the diff loop inspects exactly the
first `checkDepth` entries of the freshly fetched list — any completed cycle
notifies precisely the entries of that window absent from the history — but
there is no clamping: whenever the fetched list has fewer than `checkDepth`
entries the loop indexes out of bounds and the cycle fails with
`IndexError`. -/
theorem lookahead_window_without_clamping (st : WatcherState)
    (l : List PropertyElement) (hne : st.properties ≠ []) :
    (l.length < checkDepth →
      watchCycle st (FetchOutcome.response 200 (some l)) =
        Except.error CycleError.indexError) ∧
    (∀ out, watchCycle st (FetchOutcome.response 200 (some l)) =
        Except.ok out →
      out.notified =
        (l.take checkDepth).filter (fun p => !(memProperty p st.properties))) := by
  have hlen0 : ¬(st.properties.length = 0) := by
    simpa [List.length_eq_zero] using hne
  constructor
  · intro hlt
    have hnle : ¬(checkDepth ≤ l.length) := by omega
    simp only [watchCycle, getSearchResults_success, if_neg hlen0, if_neg hnle]
  · intro out h
    simp only [watchCycle, getSearchResults_success, if_neg hlen0] at h
    split at h
    · cases h; rfl
    · cases h

/-- Claim C5, witness at concrete inputs. -/
theorem lookahead_window_without_clamping_witness :
    watchCycle ⟨[mkP 2], 0⟩ (FetchOutcome.response 200 (some [mkP 3])) =
      Except.error CycleError.indexError :=
  (lookahead_window_without_clamping ⟨[mkP 2], 0⟩ [mkP 3] (by decide)).1
    (by decide)

/-- Claim C6, counterexample: with a one-element history (fewer than
`checkDepth` entries), a connection failure makes `_get_search_results`
return the history itself, and the diff loop then indexes past its end — the
cycle aborts with `IndexError`, so the watcher does crash on a connection
failure for this reachable history state. -/
theorem connection_failure_crashes_short_history :
    watchCycle ⟨[mkP 0], 0⟩ FetchOutcome.connectionError =
      Except.error CycleError.indexError := by decide

/-- Claim C6, amended: a connection failure increments the consecutive-failure
counter and leaves the in-memory history untouched, and the cycle completes
normally (nothing saved, nothing notified) — but only when the history is
empty or has at least `checkDepth` entries; when the history is nonempty with
fewer than `checkDepth` entries, the diff loop indexes out of bounds and the
cycle fails with `IndexError` instead of continuing. -/
theorem connection_failure_outcome (st : WatcherState) :
    (st.properties = [] ∨ checkDepth ≤ st.properties.length →
      ∃ out, watchCycle st FetchOutcome.connectionError = Except.ok out ∧
        out.state.properties = st.properties ∧
        out.state.failCount = st.failCount + 1 ∧
        out.savedSnapshot = none ∧
        out.notified = []) ∧
    (st.properties ≠ [] → st.properties.length < checkDepth →
      watchCycle st FetchOutcome.connectionError =
        Except.error CycleError.indexError) := by
  constructor
  · intro h
    rcases h with hnil | hge
    · have hlen0 : st.properties.length = 0 := by simp [hnil]
      refine ⟨{ state := ⟨st.properties, st.failCount + 1⟩
                savedSnapshot := none
                notified := []
                escalation := decide (st.failCount + 1 > failThresh) },
        ?_, rfl, rfl, rfl, rfl⟩
      simp only [watchCycle, getSearchResults_connectionError, if_pos hlen0]
    · have hlen0 : ¬(st.properties.length = 0) := by
        simp only [checkDepth] at hge
        omega
      have hmerge :
          addPropertiesToList st.properties st.properties = st.properties :=
        addPropertiesToList_id _ _ (fun p hp => mem_memProperty hp)
      have hnot :
          (st.properties.take checkDepth).filter
            (fun p => !(memProperty p st.properties)) = [] := by
        rw [List.filter_eq_nil_iff]
        intro p hp
        have hmem := mem_memProperty (List.take_subset _ _ hp)
        simp [hmem]
      refine ⟨{ state := ⟨st.properties, st.failCount + 1⟩
                savedSnapshot := none
                notified := []
                escalation := decide (st.failCount + 1 > failThresh) },
        ?_, rfl, rfl, rfl, rfl⟩
      simp only [watchCycle, getSearchResults_connectionError, if_neg hlen0,
        if_pos hge, hmerge, hnot]
  · intro hne hlt
    have hlen0 : ¬(st.properties.length = 0) := by
      simpa [List.length_eq_zero] using hne
    have hnle : ¬(checkDepth ≤ st.properties.length) := by omega
    simp only [watchCycle, getSearchResults_connectionError, if_neg hlen0,
      if_neg hnle]

/-- Claim C6, witness at a concrete (empty-history) state. -/
theorem connection_failure_outcome_witness :
    ∃ out, watchCycle ⟨[], 5⟩ FetchOutcome.connectionError = Except.ok out ∧
      out.state.properties = ([] : List PropertyElement) ∧
      out.state.failCount = 5 + 1 ∧
      out.savedSnapshot = none ∧
      out.notified = [] :=
  (connection_failure_outcome ⟨[], 5⟩).1 (Or.inl rfl)

/-- Claim C10 (confirmed): a cycle whose fetch raises a connection failure
writes nothing to the snapshot file (the `except` path of
`_get_search_results` skips `_save_property_list`), and any write that does
happen comes from a response with status 200 whose page parsed successfully,
in which case exactly the parsed list is written — so across failed cycles
the on-disk snapshot keeps its previous contents. -/
theorem snapshot_untouched_on_connection_failure (st : WatcherState)
    (o : FetchOutcome) :
    (o = FetchOutcome.connectionError →
      ∃ out, getSearchResults st o = Except.ok out ∧
        out.savedSnapshot = none) ∧
    (∀ out l, getSearchResults st o = Except.ok out →
      out.savedSnapshot = some l →
      o = FetchOutcome.response 200 (some l) ∧ out.result = l) := by
  cases o with
  | connectionError =>
      refine ⟨fun _ => ⟨_, getSearchResults_connectionError st, rfl⟩, ?_⟩
      intro out l hok hs
      rw [getSearchResults_connectionError] at hok
      cases hok
      simp at hs
  | response status parsed =>
      constructor
      · intro h
        exact FetchOutcome.noConfusion h
      · intro out l hok hs
        by_cases h200 : status = 200
        · subst h200
          cases parsed with
          | none => simp [getSearchResults] at hok
          | some l2 =>
              rw [getSearchResults_success] at hok
              cases hok
              have hl : l2 = l := Option.some.inj hs
              subst hl
              exact ⟨rfl, rfl⟩
        · simp [getSearchResults, h200] at hok

/-- Claim C10, witness at a concrete state. -/
theorem snapshot_untouched_on_connection_failure_witness :
    ∃ out, getSearchResults ⟨[mkP 4], 1⟩ FetchOutcome.connectionError =
        Except.ok out ∧ out.savedSnapshot = none :=
  (snapshot_untouched_on_connection_failure ⟨[mkP 4], 1⟩
    FetchOutcome.connectionError).1 rfl
